import Mathlib

/-!
Verification development for the OpenDTU `StatisticsParser` telemetry engine
(`lib/Hoymiles/src/parser/StatisticsParser.h`).

The repository provides the class header: the declared data model (member
types and their default member initializers) is embedded directly from it.
The method bodies live in `StatisticsParser.cpp`, which is not part of the
provided sources; those operations are modelled from the specification
(each such definition carries a doc comment starting `Modelled from the
spec:`).  Machine integers are embedded as `Nat` with explicit `% 2 ^ w`
where wrap-around matters; the C++ `float` values are idealised as `ℚ`.
-/

/-- `#define STATISTIC_PACKET_SIZE (7 * 16)` — frame-buffer capacity. -/
def STATISTIC_PACKET_SIZE : Nat := 7 * 16

/-- `enum UnitId_t` from the header. -/
inductive UnitId_t
  | UNIT_V | UNIT_A | UNIT_W | UNIT_WH | UNIT_KWH | UNIT_HZ | UNIT_C
  | UNIT_PCT | UNIT_VAR | UNIT_NONE
deriving DecidableEq, Repr

/-- `enum FieldId_t` from the header. -/
inductive FieldId_t
  | FLD_UDC | FLD_IDC | FLD_PDC | FLD_YD | FLD_YT | FLD_UAC | FLD_IAC
  | FLD_PAC | FLD_F | FLD_T | FLD_PF | FLD_EFF | FLD_IRR | FLD_Q
  | FLD_EVT_LOG
  | FLD_UAC_1N | FLD_UAC_2N | FLD_UAC_3N | FLD_UAC_12 | FLD_UAC_23
  | FLD_UAC_31 | FLD_IAC_1 | FLD_IAC_2 | FLD_IAC_3
deriving DecidableEq, Repr

/-- Indices to calculation functions (header enum, `CALC_TOTAL_YT = 0` first). -/
def CALC_TOTAL_YT : Nat := 0

/-- Calculation-function index `CALC_TOTAL_YD`. -/
def CALC_TOTAL_YD : Nat := 1

/-- Calculation-function index `CALC_CH_UDC`. -/
def CALC_CH_UDC : Nat := 2

/-- Calculation-function index `CALC_TOTAL_PDC`. -/
def CALC_TOTAL_PDC : Nat := 3

/-- Calculation-function index `CALC_TOTAL_EFF`. -/
def CALC_TOTAL_EFF : Nat := 4

/-- Calculation-function index `CALC_CH_IRR`. -/
def CALC_CH_IRR : Nat := 5

/-- Calculation-function index `CALC_TOTAL_IAC`. -/
def CALC_TOTAL_IAC : Nat := 6

/-- `enum { CMD_CALC = 0xffff }` — the sentinel divisor marking a computed row. -/
def CMD_CALC : Nat := 0xffff

/-- `enum ChannelNum_t` (CH0 .. CH5; `CH_CNT = 6`). -/
inductive ChannelNum_t
  | CH0 | CH1 | CH2 | CH3 | CH4 | CH5
deriving DecidableEq, Repr

/-- `CH_CNT` from the header's channel enum. -/
def CH_CNT : Nat := 6

/-- Numeric index of a channel (the enum's underlying value). -/
def ChannelNum_t.idx : ChannelNum_t → Nat
  | .CH0 => 0 | .CH1 => 1 | .CH2 => 2 | .CH3 => 3 | .CH4 => 4 | .CH5 => 5

/-- The six channels, in enum order. -/
def allChannels : List ChannelNum_t :=
  [.CH0, .CH1, .CH2, .CH3, .CH4, .CH5]

/-- `enum ChannelType_t` (AC, DC, aggregate/inverter). -/
inductive ChannelType_t
  | TYPE_AC | TYPE_DC | TYPE_INV
deriving DecidableEq, Repr

/-- `byteAssign_t` — one row of the byte-assignment (layout) table. -/
structure byteAssign_t where
  type : ChannelType_t
  ch : ChannelNum_t
  fieldId : FieldId_t
  unitId : UnitId_t
  start : Nat
  num : Nat
  div : Nat
  isSigned : Bool
  digits : Nat
deriving DecidableEq, Repr

/-- `fieldSettings_t` — calibration offset for one (type, channel, field) triple. -/
structure fieldSettings_t where
  type : ChannelType_t
  ch : ChannelNum_t
  fieldId : FieldId_t
  offset : ℚ
deriving DecidableEq, Repr

/-- Modelled from the spec: the yield-day correction engine's per-channel
state, a deliberate two-state machine (*accepting* / *holding*) tracking the
last-accepted value (`_lastYieldDay` in the header); the holding bit belongs
to the correction logic of the missing `StatisticsParser.cpp`. -/
structure YieldDayState where
  lastAccepted : ℚ
  holding : Bool
deriving DecidableEq, Repr

/-- The `StatisticsParser` state: the private members of the class.
`injectedValues` is the auxiliary override store of the spec (the backing
member lives in the missing `StatisticsParser.cpp` model); the other fields
mirror the header's member list.  The 32-bit `_rxFailureCount` is a `Nat`
kept below `2 ^ 32` by its operations. -/
structure StatisticsParser where
  payloadStatistic : List Nat
  statisticLength : Nat
  stringMaxPower : List Nat
  byteAssignment : List byteAssign_t
  expectedByteCount : Nat
  fieldSettings : List fieldSettings_t
  injectedValues : List (ChannelType_t × ChannelNum_t × FieldId_t × ℚ)
  rxFailureCount : Nat
  lastUpdateFromInternal : Nat
  enableYieldDayCorrection : Bool
  lastYieldDay : List YieldDayState
deriving DecidableEq, Repr

/-- The yield-day engine's reset state: accepting, baseline 0. -/
def ydReset : YieldDayState := { lastAccepted := 0, holding := false }

/-- The freshly constructed parser: the header's default member initializers
(`_payloadStatistic = {}`, `_statisticLength = 0`, `_rxFailureCount = 0`,
`_lastUpdateFromInternal = 0`, `_enableYieldDayCorrection = false`,
`_lastYieldDay = {}`).  Modelled from the spec: the constructor body is in
the missing `StatisticsParser.cpp`; per the spec the per-channel nameplate
maximum power "defaults to 0 (meaning unset)" and the constructor performs
no further writes. -/
def StatisticsParser.init : StatisticsParser where
  payloadStatistic := List.replicate STATISTIC_PACKET_SIZE 0
  statisticLength := 0
  stringMaxPower := List.replicate CH_CNT 0
  byteAssignment := []
  expectedByteCount := 0
  fieldSettings := []
  injectedValues := []
  rxFailureCount := 0
  lastUpdateFromInternal := 0
  enableYieldDayCorrection := false
  lastYieldDay := List.replicate CH_CNT ydReset

/-- Modelled from the spec: `clearBuffer()` (body in the missing
`StatisticsParser.cpp`) zeroes the frame buffer and resets the write
high-water mark. -/
def clearBuffer (s : StatisticsParser) : StatisticsParser :=
  { s with payloadStatistic := List.replicate STATISTIC_PACKET_SIZE 0
           statisticLength := 0 }

/-- The in-bounds byte copy underlying `appendFragment` (the `memcpy` into
`_payloadStatistic[offset]`). -/
def writeBytes (buf : List Nat) (offset : Nat) (payload : List Nat) : List Nat :=
  buf.take offset ++ payload ++ buf.drop (offset + payload.length)

/-- Modelled from the spec: `appendFragment(offset, payload, len)` (body in
the missing `StatisticsParser.cpp`) copies `len` bytes into the buffer at
`offset`; a write that would exceed the 112-byte capacity is rejected and the
fragment dropped, the buffer left unmodified; the high-water mark becomes
`max(current, offset + len)`. -/
def appendFragment (s : StatisticsParser) (offset : Nat) (payload : List Nat) :
    StatisticsParser :=
  if STATISTIC_PACKET_SIZE < offset + payload.length then s
  else
    { s with payloadStatistic := writeBytes s.payloadStatistic offset payload
             statisticLength := max s.statisticLength (offset + payload.length) }

/-- Modelled from the spec: `setByteAssignment(table, size)` (body in the
missing `StatisticsParser.cpp`) stores the borrowed table and precomputes
`_expectedByteCount`, the maximum `startOffset + byteCount` across all rows,
by a linear scan. -/
def setByteAssignment (s : StatisticsParser) (table : List byteAssign_t) :
    StatisticsParser :=
  { s with byteAssignment := table
           expectedByteCount := table.foldl (fun m b => max m (b.start + b.num)) 0 }

/-- `getExpectedByteCount()` returns the precomputed `_expectedByteCount`. -/
def getExpectedByteCount (s : StatisticsParser) : Nat :=
  s.expectedByteCount

/-- Whether a table row matches a (type, channel, field) triple. -/
def rowMatches (b : byteAssign_t) (t : ChannelType_t) (ch : ChannelNum_t)
    (f : FieldId_t) : Bool :=
  decide (b.type = t ∧ b.ch = ch ∧ b.fieldId = f)

/-- Modelled from the spec: `getAssignmentByChannelField` (body in the
missing `StatisticsParser.cpp`) performs bounded linear search over the
table; absence is a normal outcome. -/
def getAssignmentByChannelField (s : StatisticsParser) (t : ChannelType_t)
    (ch : ChannelNum_t) (f : FieldId_t) : Option byteAssign_t :=
  s.byteAssignment.find? (fun b => rowMatches b t ch f)

/-- Modelled from the spec: `hasChannelFieldValue` reports whether a row
exists for the triple (not whether the value is fresh). -/
def hasChannelFieldValue (s : StatisticsParser) (t : ChannelType_t)
    (ch : ChannelNum_t) (f : FieldId_t) : Bool :=
  (getAssignmentByChannelField s t ch f).isSome

/-- Modelled from the spec: `getSettingByChannelField` — linear search of the
sparse `_fieldSettings` calibration list. -/
def getSettingByChannelField (s : StatisticsParser) (t : ChannelType_t)
    (ch : ChannelNum_t) (f : FieldId_t) : Option fieldSettings_t :=
  s.fieldSettings.find?
    (fun e => decide (e.type = t ∧ e.ch = ch ∧ e.fieldId = f))

/-- Modelled from the spec: `getChannelFieldOffset` — the field's calibration
offset, default 0 when none was set. -/
def getChannelFieldOffset (s : StatisticsParser) (t : ChannelType_t)
    (ch : ChannelNum_t) (f : FieldId_t) : ℚ :=
  match getSettingByChannelField s t ch f with
  | some e => e.offset
  | none => 0

/-- The auxiliary override store lookup (spec §4.3: consulted only when no
row is found). -/
def getInjectedValue (s : StatisticsParser) (t : ChannelType_t)
    (ch : ChannelNum_t) (f : FieldId_t) : Option ℚ :=
  (s.injectedValues.find?
      (fun e => decide (e.1 = t ∧ e.2.1 = ch ∧ e.2.2.1 = f))).map
    (fun e => e.2.2.2)

/-- Big-endian accumulation of `num` buffer bytes starting at `start`
(the decode loop `val = val * 256 + byte`); bytes beyond the buffer read 0. -/
def readBigEndian (buf : List Nat) (start num : Nat) : Nat :=
  (List.range num).foldl (fun acc i => acc * 256 + buf.getD (start + i) 0) 0

/-- Two's-complement sign extension of a `num`-byte raw value when
`isSigned`. -/
def signExtend (isSigned : Bool) (num raw : Nat) : Int :=
  if isSigned = true ∧ 2 ^ (8 * num - 1) ≤ raw then
    (raw : Int) - 2 ^ (8 * num)
  else (raw : Int)

/-- Modelled from the spec: the byte-backed decode of one row — the
big-endian integer at `start`, sign-extended when `isSigned`, divided by the
row's divisor, plus the calibration offset. -/
def decodeRowValue (s : StatisticsParser) (b : byteAssign_t) (off : ℚ) : ℚ :=
  ((signExtend b.isSigned b.num (readBigEndian s.payloadStatistic b.start b.num) : ℤ) : ℚ)
    / (b.div : ℚ) + off

/-- `getStringMaxPower(channel)` — the per-channel nameplate maximum power. -/
def getStringMaxPower (s : StatisticsParser) (channel : Nat) : Nat :=
  s.stringMaxPower.getD channel 0

/-- `setStringMaxPower(channel, power)`. -/
def setStringMaxPower (s : StatisticsParser) (channel power : Nat) :
    StatisticsParser :=
  { s with stringMaxPower := s.stringMaxPower.set channel power }

/-- Modelled from the spec: the non-dispatching read used by the calculation
routines ("each routine reads already-decoded raw values via the Value
Decoder"; "it must not recurse into itself", and absent inputs are treated
as 0) — byte-backed rows decode, computed rows and missing triples without an
injected value give 0. -/
def getFieldValueDirect (s : StatisticsParser) (t : ChannelType_t)
    (ch : ChannelNum_t) (f : FieldId_t) : ℚ :=
  match getAssignmentByChannelField s t ch f with
  | some b =>
    if b.div = CMD_CALC then 0
    else decodeRowValue s b (getChannelFieldOffset s t ch f)
  | none => (getInjectedValue s t ch f).getD 0

/-- Modelled from the spec: total yield-today — sum of the per-DC-channel
raw values across all DC channels. -/
def calcTotalYieldDay (s : StatisticsParser) : ℚ :=
  (allChannels.map (fun c => getFieldValueDirect s .TYPE_DC c .FLD_YD)).sum

/-- Modelled from the spec: total yield-lifetime — sum across DC channels. -/
def calcTotalYieldTotal (s : StatisticsParser) : ℚ :=
  (allChannels.map (fun c => getFieldValueDirect s .TYPE_DC c .FLD_YT)).sum

/-- Modelled from the spec: total DC power — sum of per-string DC power. -/
def calcTotalPowerDc (s : StatisticsParser) : ℚ :=
  (allChannels.map (fun c => getFieldValueDirect s .TYPE_DC c .FLD_PDC)).sum

/-- Modelled from the spec: total efficiency — (total AC power ÷ total DC
power) × 100, defined as 0 when total DC power is 0. -/
def calcTotalEff (s : StatisticsParser) : ℚ :=
  if calcTotalPowerDc s = 0 then 0
  else getFieldValueDirect s .TYPE_AC .CH0 .FLD_PAC / calcTotalPowerDc s * 100

/-- Modelled from the spec: per-channel irradiation — (channel DC power ÷
nameplate max power) × 100, defined as 0 when max power is unset (0). -/
def calcChIrr (s : StatisticsParser) (ch : ChannelNum_t) : ℚ :=
  if getStringMaxPower s ch.idx = 0 then 0
  else
    getFieldValueDirect s .TYPE_DC ch .FLD_PDC
      / (getStringMaxPower s ch.idx : ℚ) * 100

/-- Modelled from the spec: total AC current — sum of per-phase AC currents. -/
def calcTotalIac (s : StatisticsParser) : ℚ :=
  getFieldValueDirect s .TYPE_AC .CH0 .FLD_IAC_1
    + getFieldValueDirect s .TYPE_AC .CH0 .FLD_IAC_2
    + getFieldValueDirect s .TYPE_AC .CH0 .FLD_IAC_3

/-- Modelled from the spec: aggregate DC voltage — a representative value
across DC channels (the routine's channel argument selects the string). -/
def calcChUdc (s : StatisticsParser) (ch : ChannelNum_t) : ℚ :=
  getFieldValueDirect s .TYPE_DC ch .FLD_UDC

/-- Modelled from the spec: dispatch to the fixed, named set of calculation
routines; a computed row stores the routine index in its `start` member and
the routine's channel argument in its `ch` member (header: "indices to
calculation functions, defined in hmInverter.h", also missing from the
sources). -/
def calcValue (s : StatisticsParser) (idx : Nat) (ch : ChannelNum_t) : ℚ :=
  if idx = CALC_TOTAL_YT then calcTotalYieldTotal s
  else if idx = CALC_TOTAL_YD then calcTotalYieldDay s
  else if idx = CALC_CH_UDC then calcChUdc s ch
  else if idx = CALC_TOTAL_PDC then calcTotalPowerDc s
  else if idx = CALC_TOTAL_EFF then calcTotalEff s
  else if idx = CALC_CH_IRR then calcChIrr s ch
  else if idx = CALC_TOTAL_IAC then calcTotalIac s
  else 0

/-- Modelled from the spec: `getChannelFieldValue` — look up the row; a
computed row (divisor = `CMD_CALC` sentinel) dispatches to the calculation
routines, a byte-backed row decodes from the buffer, and with no row the
auxiliary override store is consulted (default 0). -/
def getChannelFieldValue (s : StatisticsParser) (t : ChannelType_t)
    (ch : ChannelNum_t) (f : FieldId_t) : ℚ :=
  match getAssignmentByChannelField s t ch f with
  | some b =>
    if b.div = CMD_CALC then calcValue s b.start b.ch
    else decodeRowValue s b (getChannelFieldOffset s t ch f)
  | none => (getInjectedValue s t ch f).getD 0

/-- Modelled from the spec: `setChannelFieldValue` — injection is rejected
(returns `false`, state untouched) when a byte-backed row already exists for
the triple, since raw telemetry takes precedence; otherwise the value is
stored in the auxiliary override store and `true` is returned. -/
def setChannelFieldValue (s : StatisticsParser) (t : ChannelType_t)
    (ch : ChannelNum_t) (f : FieldId_t) (v : ℚ) : Bool × StatisticsParser :=
  match getAssignmentByChannelField s t ch f with
  | some b =>
    if b.div = CMD_CALC then
      (true, { s with injectedValues := (t, ch, f, v) :: s.injectedValues })
    else (false, s)
  | none => (true, { s with injectedValues := (t, ch, f, v) :: s.injectedValues })

/-- `resetRxFailureCount()` sets the counter to 0. -/
def resetRxFailureCount (s : StatisticsParser) : StatisticsParser :=
  { s with rxFailureCount := 0 }

/-- Modelled from the spec: `incrementRxFailureCount()` — a simple counter;
the header declares it `uint32_t`, so the increment wraps modulo `2 ^ 32`. -/
def incrementRxFailureCount (s : StatisticsParser) : StatisticsParser :=
  { s with rxFailureCount := (s.rxFailureCount + 1) % 2 ^ 32 }

/-- `getRxFailureCount()`. -/
def getRxFailureCount (s : StatisticsParser) : Nat :=
  s.rxFailureCount

/-- `getLastUpdateFromInternal()`. -/
def getLastUpdateFromInternal (s : StatisticsParser) : Nat :=
  s.lastUpdateFromInternal

/-- `setLastUpdateFromInternal(t)`. -/
def setLastUpdateFromInternal (s : StatisticsParser) (t : Nat) :
    StatisticsParser :=
  { s with lastUpdateFromInternal := t }

/-- `getYieldDayCorrection()`. -/
def getYieldDayCorrection (s : StatisticsParser) : Bool :=
  s.enableYieldDayCorrection

/-- `setYieldDayCorrection(enabled)`. -/
def setYieldDayCorrection (s : StatisticsParser) (enabled : Bool) :
    StatisticsParser :=
  { s with enableYieldDayCorrection := enabled }

/-- Modelled from the spec: one step of the yield-day correction engine
(logic in the missing `StatisticsParser.cpp`).  Disabled: the raw value
passes through.  Enabled: in the *holding* state the last-accepted value is
reported and the clamp persists; in the *accepting* state a raw reading
strictly below the last-accepted value triggers the clamp (the last-accepted
value is reported), and any other reading is accepted as the new baseline. -/
def ydStep (enabled : Bool) (st : YieldDayState) (raw : ℚ) :
    ℚ × YieldDayState :=
  if enabled = false then (raw, st)
  else if st.holding = true then (st.lastAccepted, st)
  else if raw < st.lastAccepted then
    (st.lastAccepted, { lastAccepted := st.lastAccepted, holding := true })
  else (raw, { lastAccepted := raw, holding := false })

/-- The observed sequence the engine produces from a sequence of raw
yield-day readings on one channel. -/
def ydObserve (enabled : Bool) (st : YieldDayState) : List ℚ → List ℚ
  | [] => []
  | r :: rs => (ydStep enabled st r).1 :: ydObserve enabled (ydStep enabled st r).2 rs

/-- Modelled from the spec: `resetYieldDayCorrection()` releases the clamp
on every channel; the next raw value (even 0) is accepted verbatim as the
new baseline. -/
def resetYieldDayCorrection (s : StatisticsParser) : StatisticsParser :=
  { s with lastYieldDay := List.replicate CH_CNT ydReset }

/-! ## Theorems -/

lemma getD_replicate_self {α : Type} (n i : Nat) (a : α) :
    (List.replicate n a).getD i a = a := by
  rw [List.getD_eq_getElem?_getD, List.getElem?_replicate]
  split <;> simp

/-- C1: every fragment write with `offset + length > 112` is rejected and the
fragment dropped — the 112-byte frame buffer and the high-water mark are
exactly as they were before the call. -/
theorem appendFragment_overflow_rejected (s : StatisticsParser) (offset : Nat)
    (payload : List Nat)
    (h : STATISTIC_PACKET_SIZE < offset + payload.length) :
    (appendFragment s offset payload).payloadStatistic = s.payloadStatistic ∧
    (appendFragment s offset payload).statisticLength = s.statisticLength := by
  simp [appendFragment, h]

/-- Witness for C1: a 20-byte fragment at offset 100 overruns the 112-byte
capacity and leaves the fresh parser's buffer and high-water mark intact. -/
theorem appendFragment_overflow_rejected_witness :
    STATISTIC_PACKET_SIZE < 100 + (List.replicate 20 (7:Nat)).length ∧
    ((appendFragment StatisticsParser.init 100 (List.replicate 20 7)).payloadStatistic
        = StatisticsParser.init.payloadStatistic ∧
      (appendFragment StatisticsParser.init 100 (List.replicate 20 7)).statisticLength
        = StatisticsParser.init.statisticLength) :=
  ⟨by decide,
    appendFragment_overflow_rejected StatisticsParser.init 100
      (List.replicate 20 7) (by decide)⟩

/-- C8: on a freshly constructed parser, `getStringMaxPower(channel)`
returns 0 (meaning unset) for every channel. -/
theorem getStringMaxPower_default (channel : Nat) :
    getStringMaxPower StatisticsParser.init channel = 0 := by
  show (List.replicate CH_CNT 0).getD channel 0 = 0
  exact getD_replicate_self _ _ _

/-- C9 counterexample: with the 32-bit counter at its maximum value
`2 ^ 32 - 1`, `incrementRxFailureCount` wraps the counter to 0, so
`getRxFailureCount` is not strictly greater than before. -/
theorem rxFailureCount_wrap_counterexample :
    ¬ (getRxFailureCount { StatisticsParser.init with rxFailureCount := 2 ^ 32 - 1 } <
        getRxFailureCount (incrementRxFailureCount
          { StatisticsParser.init with rxFailureCount := 2 ^ 32 - 1 })) := by
  decide

/-- C9 (amended): `incrementRxFailureCount` adds 1 modulo `2 ^ 32`, so the
counter is strictly greater than before whenever its previous value is below
`2 ^ 32 - 1` (at `2 ^ 32 - 1` it wraps to 0); `resetRxFailureCount` sets it
to 0; both operations are total. -/
theorem rxFailureCount_behaviour (s : StatisticsParser)
    (h : s.rxFailureCount < 2 ^ 32 - 1) :
    getRxFailureCount s < getRxFailureCount (incrementRxFailureCount s) ∧
    getRxFailureCount (incrementRxFailureCount s)
      = (getRxFailureCount s + 1) % 2 ^ 32 ∧
    getRxFailureCount (resetRxFailureCount s) = 0 := by
  refine ⟨?_, rfl, rfl⟩
  show s.rxFailureCount < (s.rxFailureCount + 1) % 2 ^ 32
  omega

/-- Witness for C9 (amended) on the fresh parser, whose counter is 0. -/
theorem rxFailureCount_behaviour_witness :
    StatisticsParser.init.rxFailureCount < 2 ^ 32 - 1 ∧
    (getRxFailureCount StatisticsParser.init <
        getRxFailureCount (incrementRxFailureCount StatisticsParser.init) ∧
      getRxFailureCount (incrementRxFailureCount StatisticsParser.init)
        = (getRxFailureCount StatisticsParser.init + 1) % 2 ^ 32 ∧
      getRxFailureCount (resetRxFailureCount StatisticsParser.init) = 0) :=
  ⟨by decide, rxFailureCount_behaviour StatisticsParser.init (by decide)⟩

/-- C10: a freshly constructed parser has all 112 frame-buffer bytes 0, a
high-water mark of 0, a reception-failure count of 0, an
internal-structural-update timestamp of 0, yield-day correction disabled,
and a last-accepted yield-day value of 0 for every channel. -/
theorem init_state_zeroed :
    StatisticsParser.init.payloadStatistic.length = STATISTIC_PACKET_SIZE ∧
    (∀ i : Nat, StatisticsParser.init.payloadStatistic.getD i 0 = 0) ∧
    StatisticsParser.init.statisticLength = 0 ∧
    getRxFailureCount StatisticsParser.init = 0 ∧
    getLastUpdateFromInternal StatisticsParser.init = 0 ∧
    getYieldDayCorrection StatisticsParser.init = false ∧
    ∀ i : Nat,
      (StatisticsParser.init.lastYieldDay.getD i ydReset).lastAccepted = 0 := by
  refine ⟨by simp [StatisticsParser.init], ?_, rfl, rfl, rfl, rfl, ?_⟩
  · intro i
    exact getD_replicate_self _ _ _
  · intro i
    show ((List.replicate CH_CNT ydReset).getD i ydReset).lastAccepted = 0
    rw [getD_replicate_self]
    rfl

/-- A synthetic byte-backed row: channel DC/CH0 voltage, 2 bytes at offset 0,
divisor 10, unsigned. -/
def exampleRow : byteAssign_t :=
  { type := .TYPE_DC, ch := .CH0, fieldId := .FLD_UDC, unitId := .UNIT_V,
    start := 0, num := 2, div := 10, isSigned := false, digits := 1 }

/-- A parser loaded with `exampleRow` whose buffer holds the big-endian
bytes of 1234 (= 4 * 256 + 210) at offset 0. -/
def exampleState : StatisticsParser :=
  setByteAssignment (appendFragment StatisticsParser.init 0 [4, 210]) [exampleRow]

/-- C2: with yield-day correction enabled, a raw reading strictly below the
last-accepted value is withheld (the last-accepted value is reported and the
engine enters the holding state); while holding, every reading reports the
last-accepted value unchanged until reset; the raw sequence
[500, 520, 15, 530] is observed as [500, 520, 520, 520]; after a reset the
next raw value (even 0) is accepted verbatim as the new baseline, and
`resetYieldDayCorrection` puts every channel in the reset state. -/
theorem yieldDayCorrection_clamp (st : YieldDayState) (raw : ℚ)
    (s : StatisticsParser) (i : Nat) :
    (st.holding = true →
      (ydStep true st raw).1 = st.lastAccepted ∧ (ydStep true st raw).2 = st) ∧
    (st.holding = false → raw < st.lastAccepted →
      (ydStep true st raw).1 = st.lastAccepted ∧
        (ydStep true st raw).2
          = { lastAccepted := st.lastAccepted, holding := true }) ∧
    (0 ≤ raw →
      ydStep true ydReset raw = (raw, { lastAccepted := raw, holding := false })) ∧
    ydObserve true ydReset [500, 520, 15, 530] = [500, 520, 520, 520] ∧
    (resetYieldDayCorrection s).lastYieldDay.getD i ydReset = ydReset := by
  refine ⟨?_, ?_, ?_, by decide, ?_⟩
  · intro hh
    simp [ydStep, hh]
  · intro hh hlt
    simp [ydStep, hh, hlt]
  · intro hge
    simp [ydStep, ydReset, not_lt.mpr hge]
  · show (List.replicate CH_CNT ydReset).getD i ydReset = ydReset
    exact getD_replicate_self _ _ _

/-- Witness for C2 at the concrete drop from last-accepted 520 to raw 15. -/
theorem yieldDayCorrection_clamp_witness :
    (ydStep true { lastAccepted := 520, holding := false } 15).1 = 520 ∧
    (ydStep true { lastAccepted := 520, holding := false } 15).2
      = { lastAccepted := 520, holding := true } :=
  (yieldDayCorrection_clamp { lastAccepted := 520, holding := false } 15
      StatisticsParser.init 0).2.1 rfl (by decide)

/-- C4: injecting a value for a triple backed by a byte-assignment row fails
(returns `false`) and leaves the state — hence every readable value —
unchanged; for a triple with no row the injection is stored and subsequent
reads of that triple return it. -/
theorem setChannelFieldValue_spec (s : StatisticsParser) (t : ChannelType_t)
    (ch : ChannelNum_t) (f : FieldId_t) (v : ℚ) (b : byteAssign_t) :
    (getAssignmentByChannelField s t ch f = some b → b.div ≠ CMD_CALC →
      setChannelFieldValue s t ch f v = (false, s)) ∧
    (getAssignmentByChannelField s t ch f = none →
      (setChannelFieldValue s t ch f v).1 = true ∧
        getChannelFieldValue (setChannelFieldValue s t ch f v).2 t ch f = v) := by
  constructor
  · intro hb hdiv
    simp [setChannelFieldValue, hb, hdiv]
  · intro hn
    have hn2 : getAssignmentByChannelField
        { s with injectedValues := (t, ch, f, v) :: s.injectedValues } t ch f
        = none := hn
    constructor
    · simp [setChannelFieldValue, hn]
    · simp [setChannelFieldValue, hn, getChannelFieldValue, hn2,
        getInjectedValue, List.find?]

/-- Witness for C4: on the fresh parser (empty table) injecting 42 for
(DC, CH0, power) succeeds and is read back. -/
theorem setChannelFieldValue_spec_witness :
    (setChannelFieldValue StatisticsParser.init .TYPE_DC .CH0 .FLD_PDC 42).1
        = true ∧
    getChannelFieldValue
        (setChannelFieldValue StatisticsParser.init .TYPE_DC .CH0 .FLD_PDC 42).2
        .TYPE_DC .CH0 .FLD_PDC = 42 :=
  (setChannelFieldValue_spec StatisticsParser.init .TYPE_DC .CH0 .FLD_PDC 42
      exampleRow).2 rfl

/-- No two distinct rows of a table describe the same
(channelType, channel, fieldId) triple. -/
def uniqueTriples (l : List byteAssign_t) : Prop :=
  List.Pairwise
    (fun a b => ¬(a.type = b.type ∧ a.ch = b.ch ∧ a.fieldId = b.fieldId)) l

lemma find?_unique_row (l : List byteAssign_t) (b : byteAssign_t)
    (huniq : uniqueTriples l) (hmem : b ∈ l) :
    l.find? (fun x => rowMatches x b.type b.ch b.fieldId) = some b := by
  induction l with
  | nil => cases hmem
  | cons x xs ih =>
    rcases List.pairwise_cons.mp huniq with ⟨hx, hxs⟩
    rcases List.mem_cons.mp hmem with rfl | hmem2
    · apply List.find?_cons_of_pos
      simp [rowMatches]
    · have hfalse : rowMatches x b.type b.ch b.fieldId = false := by
        rw [rowMatches, decide_eq_false_iff_not]
        intro hmatch
        exact hx b hmem2 hmatch
      rw [List.find?_cons, hfalse]
      exact ih hxs hmem2

/-- C6: every row of a loaded table (with at most one row per triple) is
found: `hasChannelFieldValue` is true and `getAssignmentByChannelField`
returns exactly that row; for a triple matched by no row,
`hasChannelFieldValue` is false and — with nothing injected — the value read
is the defined default 0. -/
theorem hasChannelFieldValue_spec (s : StatisticsParser) (t : ChannelType_t)
    (ch : ChannelNum_t) (f : FieldId_t) (b : byteAssign_t) :
    (uniqueTriples s.byteAssignment → b ∈ s.byteAssignment →
      b.type = t → b.ch = ch → b.fieldId = f →
      hasChannelFieldValue s t ch f = true ∧
        getAssignmentByChannelField s t ch f = some b) ∧
    ((∀ b2 ∈ s.byteAssignment, rowMatches b2 t ch f = false) →
      hasChannelFieldValue s t ch f = false ∧
        (getInjectedValue s t ch f = none → getChannelFieldValue s t ch f = 0)) := by
  constructor
  · intro huniq hmem ht hch hf
    subst ht hch hf
    have hfind := find?_unique_row s.byteAssignment b huniq hmem
    exact ⟨by simp [hasChannelFieldValue, getAssignmentByChannelField, hfind],
      hfind⟩
  · intro habs
    have hnone : getAssignmentByChannelField s t ch f = none := by
      apply List.find?_eq_none.mpr
      intro x hxmem
      simp [habs x hxmem]
    refine ⟨by simp [hasChannelFieldValue, hnone], ?_⟩
    intro hinj
    simp [getChannelFieldValue, hnone, hinj]

/-- Witness for C6 on the one-row example table. -/
theorem hasChannelFieldValue_spec_witness :
    hasChannelFieldValue exampleState .TYPE_DC .CH0 .FLD_UDC = true ∧
    getAssignmentByChannelField exampleState .TYPE_DC .CH0 .FLD_UDC
      = some exampleRow :=
  (hasChannelFieldValue_spec exampleState .TYPE_DC .CH0 .FLD_UDC exampleRow).1
    (by simp [exampleState, setByteAssignment, uniqueTriples])
    (by simp [exampleState, setByteAssignment]) rfl rfl rfl

lemma foldl_be_eq_sum (g : Nat → Nat) :
    ∀ (num acc : Nat),
      (List.range num).foldl (fun a i => a * 256 + g i) acc
        = acc * 256 ^ num
          + (Finset.range num).sum (fun i => g i * 256 ^ (num - 1 - i)) := by
  intro num
  induction num with
  | zero => intro acc; simp
  | succ n ih =>
    intro acc
    rw [List.range_succ, List.foldl_append]
    simp only [List.foldl_cons, List.foldl_nil]
    rw [ih, Finset.sum_range_succ]
    have hs : (Finset.range n).sum (fun i => g i * 256 ^ (n - 1 - i)) * 256
        = (Finset.range n).sum (fun i => g i * 256 ^ (n + 1 - 1 - i)) := by
      rw [Finset.sum_mul]
      apply Finset.sum_congr rfl
      intro i hi
      have hin : i < n := Finset.mem_range.mp hi
      have hexp : n - 1 - i + 1 = n + 1 - 1 - i := by omega
      rw [mul_assoc, ← pow_succ, hexp]
    calc (acc * 256 ^ n
            + (Finset.range n).sum (fun i => g i * 256 ^ (n - 1 - i))) * 256 + g n
        = acc * (256 ^ n * 256)
            + ((Finset.range n).sum (fun i => g i * 256 ^ (n - 1 - i)) * 256
                + g n) := by
          ring
      _ = acc * 256 ^ (n + 1)
            + ((Finset.range n).sum (fun i => g i * 256 ^ (n + 1 - 1 - i))
                + g n * 256 ^ (n + 1 - 1 - n)) := by
          rw [← pow_succ, hs]
          have hz : n + 1 - 1 - n = 0 := by omega
          rw [hz, pow_zero, mul_one]

lemma readBigEndian_eq_sum (buf : List Nat) (start num : Nat) :
    readBigEndian buf start num
      = (Finset.range num).sum
          (fun i => buf.getD (start + i) 0 * 256 ^ (num - 1 - i)) := by
  have h := foldl_be_eq_sum (fun i => buf.getD (start + i) 0) num 0
  simpa [readBigEndian] using h

/-- C3: for every byte-backed row (divisor not the calculation sentinel) and
every buffer contents, `getChannelFieldValue` equals the big-endian integer
formed from `byteCount` bytes starting at `startOffset` (positionally,
byte i weighted by 256 ^ (byteCount - 1 - i)), sign-extended when `isSigned`,
divided by the row's divisor, plus the field's calibration offset. -/
theorem getChannelFieldValue_decodes (s : StatisticsParser) (t : ChannelType_t)
    (ch : ChannelNum_t) (f : FieldId_t) (b : byteAssign_t)
    (hfind : getAssignmentByChannelField s t ch f = some b)
    (hdiv : b.div ≠ CMD_CALC) :
    getChannelFieldValue s t ch f
      = (((if b.isSigned = true ∧
              2 ^ (8 * b.num - 1)
                ≤ (Finset.range b.num).sum
                    (fun i => s.payloadStatistic.getD (b.start + i) 0
                        * 256 ^ (b.num - 1 - i))
            then ((Finset.range b.num).sum
                    (fun i => s.payloadStatistic.getD (b.start + i) 0
                        * 256 ^ (b.num - 1 - i)) : ℤ) - 2 ^ (8 * b.num)
            else ((Finset.range b.num).sum
                    (fun i => s.payloadStatistic.getD (b.start + i) 0
                        * 256 ^ (b.num - 1 - i)) : ℤ)) : ℤ) : ℚ)
          / (b.div : ℚ) + getChannelFieldOffset s t ch f := by
  simp only [getChannelFieldValue, hfind, hdiv, if_false, decodeRowValue,
    signExtend, readBigEndian_eq_sum, ite_false]
  split <;> norm_num

/-- Witness for C3: the example row (2 unsigned bytes at offset 0, divisor
10) over a buffer carrying big-endian 1234 reads back 123.4. -/
theorem getChannelFieldValue_decodes_witness :
    getAssignmentByChannelField exampleState .TYPE_DC .CH0 .FLD_UDC
        = some exampleRow ∧
    exampleRow.div ≠ CMD_CALC ∧
    getChannelFieldValue exampleState .TYPE_DC .CH0 .FLD_UDC = 1234 / 10 := by
  refine ⟨rfl, by decide, ?_⟩
  rw [getChannelFieldValue_decodes exampleState .TYPE_DC .CH0 .FLD_UDC
    exampleRow rfl (by decide)]
  have h0 : (exampleState.payloadStatistic[exampleRow.start]?).getD 0 = 4 := rfl
  have h1 : (exampleState.payloadStatistic[exampleRow.start + 1]?).getD 0 = 210 := rfl
  have hnum : exampleRow.num = 2 := rfl
  have hdiv : exampleRow.div = 10 := rfl
  have hsig : exampleRow.isSigned = false := rfl
  have hoff : getChannelFieldOffset exampleState .TYPE_DC .CH0 .FLD_UDC = 0 := rfl
  rw [hnum, hdiv, hsig, hoff]
  norm_num [Finset.sum_range_succ, h0, h1]

/-- C5: total efficiency is (total AC power ÷ total DC power) × 100 and 0
when total DC power is 0; per-channel irradiation is (channel DC power ÷
nameplate max power) × 100 and 0 when the nameplate power is 0 — always a
defined value; and a computed row carrying the corresponding calculation
index makes `getChannelFieldValue` return exactly these results. -/
theorem derivedCalc_divzero_defined (s : StatisticsParser) (t : ChannelType_t)
    (ch : ChannelNum_t) (f : FieldId_t) (b : byteAssign_t) :
    (calcTotalPowerDc s = 0 → calcTotalEff s = 0) ∧
    (calcTotalPowerDc s ≠ 0 →
      calcTotalEff s
        = getFieldValueDirect s .TYPE_AC .CH0 .FLD_PAC / calcTotalPowerDc s
            * 100) ∧
    (getStringMaxPower s ch.idx = 0 → calcChIrr s ch = 0) ∧
    (getStringMaxPower s ch.idx ≠ 0 →
      calcChIrr s ch
        = getFieldValueDirect s .TYPE_DC ch .FLD_PDC
            / (getStringMaxPower s ch.idx : ℚ) * 100) ∧
    (getAssignmentByChannelField s t ch f = some b → b.div = CMD_CALC →
      b.start = CALC_TOTAL_EFF → getChannelFieldValue s t ch f = calcTotalEff s) ∧
    (getAssignmentByChannelField s t ch f = some b → b.div = CMD_CALC →
      b.start = CALC_CH_IRR → getChannelFieldValue s t ch f = calcChIrr s b.ch) := by
  refine ⟨?_, ?_, ?_, ?_, ?_, ?_⟩
  · intro h
    simp [calcTotalEff, h]
  · intro h
    simp [calcTotalEff, h]
  · intro h
    simp [calcChIrr, h]
  · intro h
    simp [calcChIrr, h]
  · intro hb hdiv hidx
    simp [getChannelFieldValue, hb, hdiv, hidx, calcValue, CALC_TOTAL_YT,
      CALC_TOTAL_YD, CALC_CH_UDC, CALC_TOTAL_PDC, CALC_TOTAL_EFF]
  · intro hb hdiv hidx
    simp [getChannelFieldValue, hb, hdiv, hidx, calcValue, CALC_TOTAL_YT,
      CALC_TOTAL_YD, CALC_CH_UDC, CALC_TOTAL_PDC, CALC_TOTAL_EFF, CALC_CH_IRR]

/-- Witness for C5: on the fresh parser the nameplate power of CH0 is 0 and
the irradiation routine returns the defined 0. -/
theorem derivedCalc_divzero_defined_witness :
    calcChIrr StatisticsParser.init .CH0 = 0 :=
  (derivedCalc_divzero_defined StatisticsParser.init .TYPE_DC .CH0 .FLD_IRR
      exampleRow).2.2.1 rfl

lemma foldl_max_spec (g : byteAssign_t → Nat) :
    ∀ (l : List byteAssign_t) (a : Nat),
      (∀ b ∈ l, g b ≤ l.foldl (fun m b => max m (g b)) a) ∧
      a ≤ l.foldl (fun m b => max m (g b)) a ∧
      (l.foldl (fun m b => max m (g b)) a = a ∨
        ∃ b ∈ l, l.foldl (fun m b => max m (g b)) a = g b) := by
  intro l
  induction l with
  | nil =>
    intro a
    simp
  | cons x xs ih =>
    intro a
    simp only [List.foldl_cons]
    rcases ih (max a (g x)) with ⟨h1, h2, h3⟩
    refine ⟨?_, ?_, ?_⟩
    · intro b hb
      rcases List.mem_cons.mp hb with rfl | hb2
      · exact le_trans (le_max_right a (g b)) h2
      · exact h1 b hb2
    · exact le_trans (le_max_left a (g x)) h2
    · rcases h3 with h | ⟨b, hb, hbe⟩
      · rcases Nat.le_total a (g x) with hax | hax
        · right
          exact ⟨x, List.mem_cons_self x xs, by rw [h]; exact max_eq_right hax⟩
        · left
          rw [h]
          exact max_eq_left hax
      · right
        exact ⟨b, List.mem_cons_of_mem x hb, hbe⟩

/-- C7: for every loaded table, `getExpectedByteCount()` is the maximum of
`startOffset + byteCount` over all rows — it bounds every row's extent and
(unless 0) is attained by some row. -/
theorem getExpectedByteCount_is_max (s : StatisticsParser)
    (table : List byteAssign_t) :
    (∀ b ∈ table,
      b.start + b.num ≤ getExpectedByteCount (setByteAssignment s table)) ∧
    (getExpectedByteCount (setByteAssignment s table) = 0 ∨
      ∃ b ∈ table,
        getExpectedByteCount (setByteAssignment s table) = b.start + b.num) := by
  have h := foldl_max_spec (fun b => b.start + b.num) table 0
  exact ⟨h.1, h.2.2⟩

/-- A synthetic 3-row table whose row extents are 2, 4 and 8 bytes. -/
def synth3Table : List byteAssign_t :=
  [{ exampleRow with start := 0, num := 2 },
    { exampleRow with fieldId := .FLD_IDC, unitId := .UNIT_A, start := 2, num := 2 },
    { exampleRow with fieldId := .FLD_PDC, unitId := .UNIT_W, start := 4, num := 4 }]

/-- Witness for C7 over the synthetic 3-row table. -/
theorem getExpectedByteCount_is_max_witness :
    (∀ b ∈ synth3Table,
      b.start + b.num
        ≤ getExpectedByteCount (setByteAssignment StatisticsParser.init synth3Table)) ∧
    (getExpectedByteCount (setByteAssignment StatisticsParser.init synth3Table) = 0 ∨
      ∃ b ∈ synth3Table,
        getExpectedByteCount (setByteAssignment StatisticsParser.init synth3Table)
          = b.start + b.num) :=
  getExpectedByteCount_is_max StatisticsParser.init synth3Table
